import Mathlib

/-!
Verification of the IRC web client core: the line codec (`IrcParser.parse`,
`IrcParser.parseContentToHtml` from `src/services/ircParser.ts`) and the
session engine (`IrcClient` from the client service module).

Strings are processed through their underlying character lists; the
JavaScript `indexOf(' ')` / `substring` scanning loops are embedded as
structural recursion over `List Char`.  JavaScript `toUpperCase` is embedded
as ASCII `Char.toUpper` (all wire content handled by this client is ASCII).
Array accesses that may yield `undefined` are embedded as `Option`, and the
two dispatch sites that call a method on a possibly-`undefined` value are
embedded as an explicit thrown `TypeError`.
-/

/-- Splits a character list at the first space character: the characters
before the first space, and, when a space exists, the characters after it
(embedding of the `indexOf(' ')` plus two `substring` calls pattern used in
`IrcParser.parse`). -/
def splitSp : List Char → List Char × Option (List Char)
  | [] => ([], none)
  | c :: rest =>
    if c = ' ' then ([], some rest)
    else
      let r := splitSp rest
      (c :: r.1, r.2)

/-- The parameter loop of `IrcParser.parse` (ircParser.ts lines 43-58).
`atStart` is true exactly when the scan sits at the start of a token (the
loop head, where the source tests `tempLine.startsWith(':')`); `acc` holds
the characters of the current token in reverse. -/
def paramsAux (acc : List Char) (atStart : Bool) : List Char → List (List Char)
  | [] => if atStart then [] else [acc.reverse]
  | c :: rest =>
    if atStart then
      if c = ':' then [rest]
      else if c = ' ' then [] :: paramsAux [] true rest
      else paramsAux [c] false rest
    else
      if c = ' ' then acc.reverse :: paramsAux [] true rest
      else paramsAux (c :: acc) false rest

/-- Result of `IrcParser.parse`: sender origin (field `prefix` in the
source, renamed because `prefix` is reserved in Lean), upper-cased command,
positional parameters. -/
structure ParsedIrcLine where
  origin : String
  command : String
  params : List String
deriving DecidableEq

/-- ASCII embedding of JavaScript `String.prototype.toUpperCase` applied
per character. -/
def jsUpper (c : Char) : Char := c.toUpper

/-- Embedding of `IrcParser.parse` on the character list of the line:
origin stage (ircParser.ts lines 24-30), command stage (lines 32-40),
parameter loop (lines 43-58).  Returns (origin, command, params). -/
def parseL (cs : List Char) : List Char × List Char × List (List Char) :=
  let st1 :=
    if cs.head? = some ':' then
      match splitSp cs.tail with
      | (pre, some after) => (pre, after)
      | (_, none) => (([] : List Char), cs)
    else (([] : List Char), cs)
  let cmdSplit := splitSp st1.2
  (st1.1, cmdSplit.1.map jsUpper, paramsAux [] true (cmdSplit.2.getD []))

/-- `IrcParser.parse` (ircParser.ts lines 14-61). -/
def IrcParser.parse (line : String) : ParsedIrcLine :=
  let r := parseL line.data
  ⟨r.1.asString, r.2.1.asString, r.2.2.map List.asString⟩

/-- Joins parameter tokens with single space delimiters (used to state
properties of the parameter region of a raw line). -/
def sepSp : List (List Char) → List Char
  | [] => []
  | [t] => t
  | t :: ts => t ++ ' ' :: sepSp ts

/-- IRC control code for bold (the source's character literal 0x02). -/
def boldCode : Char := Char.ofNat 2

/-- IRC control code for italic (0x1D). -/
def italicCode : Char := Char.ofNat 29

/-- IRC control code for underline (0x1F). -/
def underlineCode : Char := Char.ofNat 31

/-- IRC control code for reset (0x0F). -/
def resetCode : Char := Char.ofNat 15

/-- The apostrophe character (0x27). -/
def apos : Char := Char.ofNat 39

/-- Per-character HTML escaping (ircParser.ts lines 116-121). -/
def escapeChar (c : Char) : String :=
  if c = '&' then "&amp;"
  else if c = '<' then "&lt;"
  else if c = '>' then "&gt;"
  else if c = '"' then "&quot;"
  else if c = apos then "&#039;"
  else String.singleton c

/-- The rendering loop of `IrcParser.parseContentToHtml` (ircParser.ts lines
99-128), with the three toggle flags passed explicitly.  The `[]` case is the
close-any-remaining epilogue (lines 126-128, fixed order bold, italic,
underline); the reset branch closes tags in the same fixed order the source
does (lines 111-113). -/
def renderAux (b i u : Bool) : List Char → String
  | [] =>
    (if b then "</b>" else "") ++ (if i then "</i>" else "") ++
      (if u then "</u>" else "")
  | c :: rest =>
    if c = boldCode then (if b then "</b>" else "<b>") ++ renderAux (!b) i u rest
    else if c = italicCode then (if i then "</i>" else "<i>") ++ renderAux b (!i) u rest
    else if c = underlineCode then (if u then "</u>" else "<u>") ++ renderAux b i (!u) rest
    else if c = resetCode then
      ((if b then "</b>" else "") ++ (if i then "</i>" else "") ++
        (if u then "</u>" else "")) ++ renderAux false false false rest
    else escapeChar c ++ renderAux b i u rest

/-- `IrcParser.parseContentToHtml` (the spec's `renderInlineMarkup`),
ircParser.ts lines 64-131; the loop at lines 88-96 has an empty body and
`result` is reset at line 98, so only the second loop is effective. -/
def IrcParser.parseContentToHtml (text : String) : String :=
  renderAux false false false text.data

/-- The three tag kinds emitted by the markup renderer. -/
inductive Tag
  | bold
  | italic
  | underline
deriving DecidableEq

/-- One output item of the markup renderer: an opening tag, a closing tag,
or one escaped ordinary character. -/
inductive Tok
  | opn (t : Tag)
  | cls (t : Tag)
  | chr (c : Char)
deriving DecidableEq

/-- Rendering of one output item as the source's literal tag text. -/
def tokStr : Tok → String
  | .opn .bold => "<b>"
  | .opn .italic => "<i>"
  | .opn .underline => "<u>"
  | .cls .bold => "</b>"
  | .cls .italic => "</i>"
  | .cls .underline => "</u>"
  | .chr c => escapeChar c

/-- Concatenated rendering of an output item stream. -/
def toksStr : List Tok → String
  | [] => ""
  | t :: ts => tokStr t ++ toksStr ts

/-- The renderer's output viewed as a stream of tag/character items (same
scan as `renderAux`). -/
def renderToks (b i u : Bool) : List Char → List Tok
  | [] =>
    (if b then [Tok.cls .bold] else []) ++ (if i then [Tok.cls .italic] else []) ++
      (if u then [Tok.cls .underline] else [])
  | c :: rest =>
    if c = boldCode then
      (if b then Tok.cls .bold else Tok.opn .bold) :: renderToks (!b) i u rest
    else if c = italicCode then
      (if i then Tok.cls .italic else Tok.opn .italic) :: renderToks b (!i) u rest
    else if c = underlineCode then
      (if u then Tok.cls .underline else Tok.opn .underline) :: renderToks b i (!u) rest
    else if c = resetCode then
      ((if b then [Tok.cls .bold] else []) ++ (if i then [Tok.cls .italic] else []) ++
        (if u then [Tok.cls .underline] else [])) ++ renderToks false false false rest
    else Tok.chr c :: renderToks b i u rest

/-- Well-formedness checker for a tag stream, tracking which of the three
tags is currently open: a tag may only be opened when closed and closed when
open, and every tag must be closed when the stream ends. -/
def checkToks : Bool → Bool → Bool → List Tok → Bool
  | b, i, u, [] => !b && !i && !u
  | b, i, u, Tok.opn Tag.bold :: rest => !b && checkToks true i u rest
  | b, i, u, Tok.cls Tag.bold :: rest => b && checkToks false i u rest
  | b, i, u, Tok.opn Tag.italic :: rest => !i && checkToks b true u rest
  | b, i, u, Tok.cls Tag.italic :: rest => i && checkToks b false u rest
  | b, i, u, Tok.opn Tag.underline :: rest => !u && checkToks b i true rest
  | b, i, u, Tok.cls Tag.underline :: rest => u && checkToks b i false rest
  | b, i, u, Tok.chr _ :: rest => checkToks b i u rest

/-- Server configuration (`IrcServerConfig` in types.ts), restricted to the
fields the session engine reads. -/
structure IrcServerConfig where
  host : String
  port : Nat
  nick : String
  username : String
  realname : String
  password : Option String
  channels : List String
deriving DecidableEq

/-- Mutable session state of `IrcClient`: `wsOpen` embeds
`this.ws !== null && this.ws.readyState === WebSocket.OPEN` (the guard of
`send`), `currentNick` embeds `this.currentNick`. -/
structure ClientState where
  wsOpen : Bool
  currentNick : String
deriving DecidableEq

/-- JavaScript template-literal interpolation of a possibly-undefined
string value. -/
def jsStr : Option String → String
  | some s => s
  | none => "undefined"

/-- Events pushed through `emit`; payload fields that the source reads from
a possibly-missing array index are `Option String` (`none` embeds
`undefined`). -/
inductive Event
  | status (s : String)
  | error (s : String)
  | raw (line : String)
  | registered
  | system (msg : String)
  | joinEv (nick : String) (channel : Option String)
  | partEv (nick : String) (channel : Option String)
  | quitEv (nick : String) (reason : Option String)
  | kickEv (channel kickedNick : Option String) (actor reason : String)
  | modeEv (channel actor : String) (modes : Option String) (args : List String)
  | privmsg (target : Option String) (sender : String) (content : Option String)
      (isSelf : Option Bool)
  | names (channel : Option String) (list : List String)
  | topic (channel topicText : Option String)
deriving DecidableEq

/-- One observable step of the session engine, in program order: a transport
write or an event emission. -/
inductive Act
  | write (line : String)
  | emit (ev : Event)
deriving DecidableEq

/-- JavaScript runtime error raised by the dispatch (a property access on
`undefined`). -/
inductive JsError
  | typeError
deriving DecidableEq

/-- Result of dispatching one inbound line: the state after the handler, the
writes and emissions it performed in order, and whether it threw.  Acts
performed before a throw are kept, because in the source they have already
happened when the exception propagates. -/
structure StepResult where
  state : ClientState
  actions : List Act
  thrown : Option JsError
deriving DecidableEq

namespace IrcClient

/-- `IrcClient.send` (client lines 78-83): writes `raw + "\r\n"` iff the
transport handle exists and is open, otherwise does nothing. -/
def send (st : ClientState) (raw : String) : List Act :=
  if st.wsOpen then [Act.write (raw ++ "\r\n")] else []

/-- `IrcClient.getNickFromPrefix` (client lines 176-178): the substring of
the origin before the first `!` (the whole origin when no `!` occurs). -/
def getNickFromOrigin (p : String) : String :=
  (p.splitOn "!").headD ""

/-- `IrcClient.join` (client lines 180-186); an empty key counts as absent
because the source tests JavaScript truthiness `if (key)`. -/
def join (st : ClientState) (channel : String) (key : Option String) :
    ClientState × List Act :=
  match key with
  | some k =>
    if k = "" then (st, send st ("JOIN " ++ channel))
    else (st, send st ("JOIN " ++ channel ++ " " ++ k))
  | none => (st, send st ("JOIN " ++ channel))

/-- `IrcClient.part` (client lines 188-190). -/
def part (st : ClientState) (channel : String) : ClientState × List Act :=
  (st, send st ("PART " ++ channel))

/-- `IrcClient.sendMessage` (client lines 192-195): the transport write is
guarded by `send`, but the local self-authored `privmsg` emission is not. -/
def sendMessage (st : ClientState) (target text : String) :
    ClientState × List Act :=
  (st, send st ("PRIVMSG " ++ target ++ " :" ++ text) ++
    [Act.emit (Event.privmsg (some target) st.currentNick (some text) (some true))])

/-- `IrcClient.changeNick` (client lines 197-200): the write is guarded by
`send`, but `currentNick` is updated unconditionally. -/
def changeNick (st : ClientState) (newNick : String) : ClientState × List Act :=
  ({ st with currentNick := newNick }, send st ("NICK " ++ newNick))

/-- `IrcClient.kick` (client lines 203-205). -/
def kick (st : ClientState) (channel nick reason : String) :
    ClientState × List Act :=
  (st, send st ("KICK " ++ channel ++ " " ++ nick ++ " :" ++ reason))

/-- `IrcClient.ban` (client lines 207-210). -/
def ban (st : ClientState) (channel nick : String) : ClientState × List Act :=
  (st, send st ("MODE " ++ channel ++ " +b " ++ nick ++ "!*@*"))

/-- `IrcClient.unban` (client lines 212-214). -/
def unban (st : ClientState) (channel hostmask : String) : ClientState × List Act :=
  (st, send st ("MODE " ++ channel ++ " -b " ++ hostmask))

/-- `IrcClient.op` (client lines 216-218). -/
def op (st : ClientState) (channel nick : String) : ClientState × List Act :=
  (st, send st ("MODE " ++ channel ++ " +o " ++ nick))

/-- `IrcClient.deop` (client lines 220-222). -/
def deop (st : ClientState) (channel nick : String) : ClientState × List Act :=
  (st, send st ("MODE " ++ channel ++ " -o " ++ nick))

/-- `IrcClient.voice` (client lines 224-226). -/
def voice (st : ClientState) (channel nick : String) : ClientState × List Act :=
  (st, send st ("MODE " ++ channel ++ " +v " ++ nick))

/-- `IrcClient.devoice` (client lines 228-230). -/
def devoice (st : ClientState) (channel nick : String) : ClientState × List Act :=
  (st, send st ("MODE " ++ channel ++ " -v " ++ nick))

/-- `IrcClient.setMode` (client lines 232-235); an empty optional argument
counts as absent because the source tests truthiness `param ? ... : ''`. -/
def setMode (st : ClientState) (channel mode : String) (param : Option String) :
    ClientState × List Act :=
  let p :=
    match param with
    | some s => if s = "" then "" else " " ++ s
    | none => ""
  (st, send st ("MODE " ++ channel ++ " " ++ mode ++ p))

/-- `IrcClient.handleMessage` (client lines 93-174).  The `PING` branch
returns before the `raw` emission; every other branch emits `raw` first and
then dispatches on the command.  The `MODE` branch with an empty parameter
list and the `353` branch with fewer than four parameters throw a
`TypeError` in the source (`msg.params[0].startsWith` resp.
`msg.params[3].split` on `undefined`). -/
def handleMessage (cfg : IrcServerConfig) (st : ClientState) (msg : ParsedIrcLine)
    (raw : String) : StepResult :=
  if msg.command = "PING" then
    ⟨st, send st ("PONG :" ++ jsStr (msg.params.get? 0)), none⟩
  else
    let rawA := [Act.emit (Event.raw raw)]
    if msg.command = "001" then
      ⟨st, rawA ++ [Act.emit Event.registered] ++
        (cfg.channels.map fun ch => send st ("JOIN " ++ ch)).flatten, none⟩
    else if msg.command = "433" then
      let newNick := st.currentNick ++ "_"
      ⟨{ st with currentNick := newNick },
        rawA ++ [Act.emit (Event.system
          ("昵称 " ++ st.currentNick ++ " 已被占用，尝试使用 " ++ newNick))] ++
          send st ("NICK " ++ newNick), none⟩
    else if msg.command = "JOIN" then
      ⟨st, rawA ++ [Act.emit (Event.joinEv (getNickFromOrigin msg.origin)
        (msg.params.get? 0))], none⟩
    else if msg.command = "PART" then
      ⟨st, rawA ++ [Act.emit (Event.partEv (getNickFromOrigin msg.origin)
        (msg.params.get? 0))], none⟩
    else if msg.command = "QUIT" then
      ⟨st, rawA ++ [Act.emit (Event.quitEv (getNickFromOrigin msg.origin)
        (msg.params.get? 0))], none⟩
    else if msg.command = "KICK" then
      ⟨st, rawA ++ [Act.emit (Event.kickEv (msg.params.get? 0) (msg.params.get? 1)
        (getNickFromOrigin msg.origin) ((msg.params.get? 2).getD ""))], none⟩
    else if msg.command = "MODE" then
      match msg.params with
      | [] => ⟨st, rawA, some JsError.typeError⟩
      | p0 :: rest =>
        if p0.startsWith "#" then
          ⟨st, rawA ++ [Act.emit (Event.modeEv p0 (getNickFromOrigin msg.origin)
            rest.head? (rest.drop 1))], none⟩
        else ⟨st, rawA, none⟩
    else if msg.command = "PRIVMSG" then
      ⟨st, rawA ++ [Act.emit (Event.privmsg (msg.params.get? 0)
        (getNickFromOrigin msg.origin) (msg.params.get? 1) none)], none⟩
    else if msg.command = "353" then
      match msg.params.get? 3 with
      | none => ⟨st, rawA, some JsError.typeError⟩
      | some namesStr =>
        ⟨st, rawA ++ [Act.emit (Event.names (msg.params.get? 2)
          (namesStr.splitOn " "))], none⟩
    else if msg.command = "475" then
      ⟨st, rawA ++ [Act.emit (Event.error
        ("无法加入频道 " ++ jsStr (msg.params.get? 1) ++ " : 密码错误"))], none⟩
    else if msg.command = "332" then
      ⟨st, rawA ++ [Act.emit (Event.topic (msg.params.get? 1)
        (msg.params.get? 2))], none⟩
    else ⟨st, rawA, none⟩

/-- One line of `ws.onmessage` (client lines 48-52): parse, then dispatch. -/
def feedLine (cfg : IrcServerConfig) (st : ClientState) (line : String) : StepResult :=
  handleMessage cfg st (IrcParser.parse line) line

end IrcClient

/-- The transport writes contained in an action list, in order. -/
def writesOf (acts : List Act) : List String :=
  acts.filterMap fun a =>
    match a with
    | Act.write s => some s
    | _ => none

/-- Whether an action is a transport write. -/
def isWrite : Act → Bool
  | Act.write _ => true
  | _ => false

/-- Whether an action is the emission of the `registered` event. -/
def isRegistered : Act → Bool
  | Act.emit Event.registered => true
  | _ => false

/-- The `system` event payloads contained in an action list, in order. -/
def systemMsgsOf (acts : List Act) : List String :=
  acts.filterMap fun a =>
    match a with
    | Act.emit (Event.system m) => some m
    | _ => none

/-- The `mode` events contained in an action list, in order. -/
def modeEventsOf (acts : List Act) : List Event :=
  acts.filterMap fun a =>
    match a with
    | Act.emit (Event.modeEv ch actor modes args) =>
      some (Event.modeEv ch actor modes args)
    | _ => none

/-- A sample configuration used to instantiate claims at concrete inputs. -/
def demoConfig : IrcServerConfig :=
  ⟨"irc.example.org", 6667, "Guest", "guest", "Guest User", none, ["#a", "#b"]⟩

/-! ## Auxiliary lemmas -/

theorem data_append (s t : String) : (s ++ t).data = s.data ++ t.data := by
  cases s
  cases t
  rfl

theorem asString_data (s : String) : s.data.asString = s := by
  cases s
  rfl

theorem empty_strAppend (s : String) : "" ++ s = s := by
  cases s
  rfl

theorem strAppend_empty (s : String) : s ++ "" = s := by
  cases s with
  | mk d =>
    show String.mk (d ++ []) = String.mk d
    rw [List.append_nil]

theorem strAppend_assoc (a b c : String) : a ++ b ++ c = a ++ (b ++ c) := by
  cases a with
  | mk x =>
    cases b with
    | mk y =>
      cases c with
      | mk z =>
        show String.mk (x ++ y ++ z) = String.mk (x ++ (y ++ z))
        rw [List.append_assoc]

theorem splitSp_no_space (l : List Char) (h : ' ' ∉ l) : splitSp l = (l, none) := by
  induction l with
  | nil => rfl
  | cons c rest ih =>
    have hc : ¬(c = ' ') := fun e => h (e ▸ List.mem_cons_self c rest)
    have hr : ' ' ∉ rest := fun m => h (List.mem_cons_of_mem c m)
    simp [splitSp, hc, ih hr]

theorem splitSp_append (l₁ l₂ : List Char) (h : ' ' ∉ l₁) :
    splitSp (l₁ ++ ' ' :: l₂) = (l₁, some l₂) := by
  induction l₁ with
  | nil => simp [splitSp]
  | cons c rest ih =>
    have hc : ¬(c = ' ') := fun e => h (e ▸ List.mem_cons_self c rest)
    have hr : ' ' ∉ rest := fun m => h (List.mem_cons_of_mem c m)
    simp [splitSp, hc, ih hr]

theorem paramsAux_false_no_space (t : List Char) : ∀ acc, ' ' ∉ t →
    paramsAux acc false t = [acc.reverse ++ t] := by
  induction t with
  | nil =>
    intro acc _
    simp [paramsAux]
  | cons c rest ih =>
    intro acc h
    have hc : ¬(c = ' ') := fun e => h (e ▸ List.mem_cons_self c rest)
    have hr : ' ' ∉ rest := fun m => h (List.mem_cons_of_mem c m)
    simp [paramsAux, hc, ih (c :: acc) hr]

theorem paramsAux_false_space (t rest : List Char) : ∀ acc, ' ' ∉ t →
    paramsAux acc false (t ++ ' ' :: rest) = (acc.reverse ++ t) :: paramsAux [] true rest := by
  induction t with
  | nil =>
    intro acc _
    simp [paramsAux]
  | cons c t' ih =>
    intro acc h
    have hc : ¬(c = ' ') := fun e => h (e ▸ List.mem_cons_self c t')
    have ht : ' ' ∉ t' := fun m => h (List.mem_cons_of_mem c m)
    simp [paramsAux, hc, ih (c :: acc) ht]

theorem paramsAux_trailing (r : List Char) : paramsAux [] true (':' :: r) = [r] := by
  simp [paramsAux]

theorem paramsAux_true_tok (t rest : List Char) (h : ' ' ∉ t)
    (hh : t.head? ≠ some ':') :
    paramsAux [] true (t ++ ' ' :: rest) = t :: paramsAux [] true rest := by
  cases t with
  | nil => simp [paramsAux]
  | cons c t' =>
    have hc : ¬(c = ':') := fun e => hh (by simp [e])
    have hcs : ¬(c = ' ') := fun e => h (e ▸ List.mem_cons_self c t')
    have ht : ' ' ∉ t' := fun m => h (List.mem_cons_of_mem c m)
    simp [paramsAux, hc, hcs, paramsAux_false_space t' rest [c] ht]

theorem paramsAux_true_last (t : List Char) (h : ' ' ∉ t) (hh : t.head? ≠ some ':')
    (hne : t ≠ []) :
    paramsAux [] true t = [t] := by
  cases t with
  | nil => exact absurd rfl hne
  | cons c t' =>
    have hc : ¬(c = ':') := fun e => hh (by simp [e])
    have hcs : ¬(c = ' ') := fun e => h (e ▸ List.mem_cons_self c t')
    have ht : ' ' ∉ t' := fun m => h (List.mem_cons_of_mem c m)
    simp [paramsAux, hc, hcs, paramsAux_false_no_space t' [c] ht]

theorem sepSp_cons (t : List Char) (l : List (List Char)) (h : l ≠ []) :
    sepSp (t :: l) = t ++ ' ' :: sepSp l := by
  cases l with
  | nil => exact absurd rfl h
  | cons x xs => rfl

theorem paramsAux_sepSp_trailing (toks : List (List Char)) (trail : List Char)
    (h : ∀ t ∈ toks, ' ' ∉ t ∧ t.head? ≠ some ':') :
    paramsAux [] true (sepSp (toks ++ [':' :: trail])) = toks ++ [trail] := by
  induction toks with
  | nil => simp [sepSp, paramsAux_trailing]
  | cons t ts ih =>
    rw [List.cons_append, sepSp_cons _ _ (by simp),
      paramsAux_true_tok _ _ (h t (List.mem_cons_self t ts)).1
        (h t (List.mem_cons_self t ts)).2,
      ih (fun x hx => h x (List.mem_cons_of_mem t hx))]
    simp

theorem paramsAux_sepSp_toks (toks : List (List Char)) (t : List Char)
    (h : ∀ x ∈ toks, ' ' ∉ x ∧ x.head? ≠ some ':')
    (ht : ' ' ∉ t) (hth : t.head? ≠ some ':') (htne : t ≠ []) :
    paramsAux [] true (sepSp (toks ++ [t])) = toks ++ [t] := by
  induction toks with
  | nil => simpa [sepSp] using paramsAux_true_last t ht hth htne
  | cons x xs ih =>
    rw [List.cons_append, sepSp_cons _ _ (by simp),
      paramsAux_true_tok _ _ (h x (List.mem_cons_self x xs)).1
        (h x (List.mem_cons_self x xs)).2,
      ih (fun y hy => h y (List.mem_cons_of_mem x hy))]

theorem parseL_after_cmd (cmd r : List Char) (hc : ' ' ∉ cmd)
    (hh : cmd.head? ≠ some ':') :
    parseL (cmd ++ ' ' :: r) = ([], cmd.map jsUpper, paramsAux [] true r) := by
  cases cmd with
  | nil => simp [parseL, splitSp]
  | cons c cs =>
    have hcc : ¬(c = ':') := fun e => hh (by simp [e])
    have hcs : ' ' ∉ cs := fun m => hc (List.mem_cons_of_mem c m)
    have hcsp : ¬(c = ' ') := fun e => hc (e ▸ List.mem_cons_self c cs)
    simp [parseL, hcc, splitSp, hcsp, splitSp_append cs r hcs]

theorem parseL_colon_no_space (cs : List Char) (hh : cs.head? = some ':')
    (hs : ' ' ∉ cs) :
    parseL cs = ([], cs.map jsUpper, []) := by
  have htail : ' ' ∉ cs.tail := by
    cases cs with
    | nil => simp
    | cons c r => exact fun m => hs (List.mem_cons_of_mem c m)
  simp [parseL, hh, splitSp_no_space _ htail, splitSp_no_space cs hs, paramsAux]

theorem toksStr_append (a b : List Tok) : toksStr (a ++ b) = toksStr a ++ toksStr b := by
  induction a with
  | nil => simp [toksStr, empty_strAppend]
  | cons t ts ih => simp [toksStr, ih, strAppend_assoc]

theorem italic_ne_bold : ¬(italicCode = boldCode) := by decide

theorem underline_ne_bold : ¬(underlineCode = boldCode) := by decide

theorem underline_ne_italic : ¬(underlineCode = italicCode) := by decide

theorem reset_ne_bold : ¬(resetCode = boldCode) := by decide

theorem reset_ne_italic : ¬(resetCode = italicCode) := by decide

theorem reset_ne_underline : ¬(resetCode = underlineCode) := by decide

theorem renderAux_eq_toksStr (cs : List Char) : ∀ b i u,
    renderAux b i u cs = toksStr (renderToks b i u cs) := by
  induction cs with
  | nil =>
    intro b i u
    cases b <;> cases i <;> cases u <;> rfl
  | cons c rest ih =>
    intro b i u
    by_cases hb : c = boldCode
    · subst hb
      cases b <;> simp [renderAux, renderToks, toksStr, tokStr, ih]
    · by_cases hi : c = italicCode
      · subst hi
        cases i <;> simp [renderAux, renderToks, italic_ne_bold, toksStr, tokStr, ih]
      · by_cases hu : c = underlineCode
        · subst hu
          cases u <;> simp [renderAux, renderToks, underline_ne_bold,
            underline_ne_italic, toksStr, tokStr, ih]
        · by_cases hr : c = resetCode
          · subst hr
            cases b <;> cases i <;> cases u <;>
              simp [renderAux, renderToks, reset_ne_bold, reset_ne_italic,
                reset_ne_underline, toksStr, tokStr, toksStr_append, ih,
                strAppend_assoc, empty_strAppend, strAppend_empty] <;>
              simp [← strAppend_assoc]
          · simp [renderAux, renderToks, hb, hi, hu, hr, toksStr, tokStr, ih]

theorem checkToks_renderToks (cs : List Char) : ∀ b i u,
    checkToks b i u (renderToks b i u cs) = true := by
  induction cs with
  | nil =>
    intro b i u
    cases b <;> cases i <;> cases u <;> rfl
  | cons c rest ih =>
    intro b i u
    by_cases hb : c = boldCode
    · subst hb
      cases b <;> simp [renderToks, checkToks, ih]
    · by_cases hi : c = italicCode
      · subst hi
        cases i <;> simp [renderToks, checkToks, italic_ne_bold, ih]
      · by_cases hu : c = underlineCode
        · subst hu
          cases u <;> simp [renderToks, checkToks, underline_ne_bold,
            underline_ne_italic, ih]
        · by_cases hr : c = resetCode
          · subst hr
            cases b <;> cases i <;> cases u <;>
              simp [renderToks, checkToks, reset_ne_bold, reset_ne_italic,
                reset_ne_underline, ih]
          · simp [renderToks, checkToks, hb, hi, hu, hr, ih]

/-! ## Claim theorems -/

/-- C1: for every raw line, `parse` stops positional scanning at the first
parameter token beginning with the trailing marker `:` and returns, as the
single final parameter, that token with the marker stripped concatenated
with the entire remainder of the line verbatim (embedded spaces preserved),
with parameter order preserved; in particular
`parse ":nick!user@host PRIVMSG #chan :hello world"` yields origin
`"nick!user@host"`, command `"PRIVMSG"`, parameters
`["#chan", "hello world"]`. -/
theorem C1_trailing_param :
    (∀ (cmd trail : List Char) (toks : List (List Char)),
      ' ' ∉ cmd → cmd.head? ≠ some ':' →
      (∀ t ∈ toks, ' ' ∉ t ∧ t.head? ≠ some ':') →
      parseL (cmd ++ ' ' :: sepSp (toks ++ [':' :: trail])) =
        ([], cmd.map jsUpper, toks ++ [trail])) ∧
    IrcParser.parse ":nick!user@host PRIVMSG #chan :hello world" =
      ⟨"nick!user@host", "PRIVMSG", ["#chan", "hello world"]⟩ := by
  constructor
  · intro cmd trail toks h1 h2 h3
    rw [parseL_after_cmd cmd _ h1 h2, paramsAux_sepSp_trailing toks trail h3]
  · decide

/-- Witness for C1 at the concrete command `PRIVMSG`, positional token
`#chan` and trailing text `hello world`. -/
theorem C1_trailing_param_witness :
    parseL ("PRIVMSG".data ++ ' ' ::
        sepSp (["#chan".data] ++ [':' :: "hello world".data])) =
      ([], "PRIVMSG".data.map jsUpper, ["#chan".data] ++ ["hello world".data]) :=
  C1_trailing_param.1 "PRIVMSG".data "hello world".data ["#chan".data]
    (by decide) (by decide) (by decide)

/-- C2: feeding the line `"PING :token123"` into a session with an open
transport produces exactly one outbound write `"PONG :token123\r\n"` and
zero emitted events (no raw event either), and
`parse "PING :token123"` yields command `"PING"`, parameters
`["token123"]`. -/
theorem C2_ping_pong : ∀ (cfg : IrcServerConfig) (nick : String),
    IrcClient.feedLine cfg ⟨true, nick⟩ "PING :token123" =
      ⟨⟨true, nick⟩, [Act.write "PONG :token123\r\n"], none⟩ ∧
    IrcParser.parse "PING :token123" = ⟨"", "PING", ["token123"]⟩ := by
  intro cfg nick
  have hp : IrcParser.parse "PING :token123" = ⟨"", "PING", ["token123"]⟩ := by decide
  refine ⟨?_, hp⟩
  simp [IrcClient.feedLine, hp, IrcClient.handleMessage, IrcClient.send, jsStr]

/-- C3: on receiving a 433 numeric while the current nickname is `"Guest"`,
the session's nickname becomes `"Guest_"`, exactly one `system` event
describing the substitution is emitted, and exactly one outbound
`NICK Guest_` command line is written. -/
theorem C3_nick_collision : ∀ cfg : IrcServerConfig,
    (IrcClient.feedLine cfg ⟨true, "Guest"⟩
        ":server 433 * Guest :Nickname is already in use").state.currentNick =
      "Guest_" ∧
    systemMsgsOf (IrcClient.feedLine cfg ⟨true, "Guest"⟩
        ":server 433 * Guest :Nickname is already in use").actions =
      ["昵称 Guest 已被占用，尝试使用 Guest_"] ∧
    writesOf (IrcClient.feedLine cfg ⟨true, "Guest"⟩
        ":server 433 * Guest :Nickname is already in use").actions =
      ["NICK Guest_\r\n"] := by
  intro cfg
  have hp : IrcParser.parse ":server 433 * Guest :Nickname is already in use" =
      ⟨"server", "433", ["*", "Guest", "Nickname is already in use"]⟩ := by decide
  simp [IrcClient.feedLine, hp, IrcClient.handleMessage, IrcClient.send,
    writesOf, systemMsgsOf]

/-- C5: on receiving the welcome numeric 001 with configured auto-join
channels `["#a", "#b"]`, the session writes exactly two outbound `JOIN`
commands, one per configured channel in configured order, emits exactly one
`registered` event, and the `registered` event precedes every write. -/
theorem C5_welcome_autojoin : ∀ (cfg : IrcServerConfig) (nick : String),
    cfg.channels = ["#a", "#b"] →
    writesOf (IrcClient.feedLine cfg ⟨true, nick⟩ ":server 001 Guest :Welcome").actions =
      ["JOIN #a\r\n", "JOIN #b\r\n"] ∧
    ((IrcClient.feedLine cfg ⟨true, nick⟩ ":server 001 Guest :Welcome").actions.filter
      isRegistered).length = 1 ∧
    ((IrcClient.feedLine cfg ⟨true, nick⟩ ":server 001 Guest :Welcome").actions.takeWhile
      (fun a => !(isWrite a))).any isRegistered = true := by
  intro cfg nick hch
  have hp : IrcParser.parse ":server 001 Guest :Welcome" =
      ⟨"server", "001", ["Guest", "Welcome"]⟩ := by decide
  simp [IrcClient.feedLine, hp, IrcClient.handleMessage, hch, IrcClient.send,
    writesOf, isWrite, isRegistered]

/-- Witness for C5 at the sample configuration (whose auto-join list is
`["#a", "#b"]`) and nickname `"Guest"`. -/
theorem C5_welcome_autojoin_witness :
    writesOf (IrcClient.feedLine demoConfig ⟨true, "Guest"⟩
        ":server 001 Guest :Welcome").actions = ["JOIN #a\r\n", "JOIN #b\r\n"] ∧
    ((IrcClient.feedLine demoConfig ⟨true, "Guest"⟩
        ":server 001 Guest :Welcome").actions.filter isRegistered).length = 1 ∧
    ((IrcClient.feedLine demoConfig ⟨true, "Guest"⟩
        ":server 001 Guest :Welcome").actions.takeWhile
      (fun a => !(isWrite a))).any isRegistered = true :=
  C5_welcome_autojoin demoConfig "Guest" rfl

/-- C6 (failing input): an inbound `MODE` line whose parameter list is empty
is not handled without failing: the dispatch emits the `raw` event and then
throws a `TypeError` (the source reads `msg.params[0].startsWith` on
`undefined`), for any configuration and nickname. -/
theorem C6_mode_empty_throws : ∀ (cfg : IrcServerConfig) (nick : String),
    IrcClient.feedLine cfg ⟨true, nick⟩ "MODE" =
      ⟨⟨true, nick⟩, [Act.emit (Event.raw "MODE")], some JsError.typeError⟩ := by
  intro cfg nick
  have hp : IrcParser.parse "MODE" = ⟨"", "MODE", []⟩ := by decide
  simp [IrcClient.feedLine, hp, IrcClient.handleMessage]

/-- C4 (counterexample): invoked while disconnected, `changeNick` still
changes the session state and `sendMessage` still emits an event, so the
builders are not all complete no-ops. -/
theorem C4_counterexample :
    (IrcClient.changeNick ⟨false, "Guest"⟩ "Alice").1 ≠
      (⟨false, "Guest"⟩ : ClientState) ∧
    (IrcClient.sendMessage ⟨false, "Guest"⟩ "#chan" "hi").2 ≠ ([] : List Act) := by
  decide

/-- C4 (amended): every outbound builder invoked while the transport is not
open writes nothing to the transport; `join`, `part`, raw `send`, and the
moderation commands are complete no-ops, but `sendMessage` still emits its
local self-authored `privmsg` event and `changeNick` still updates the
current nickname. -/
theorem C4_amended_no_writes : ∀ (st : ClientState) (raw channel nick2 target
    text reason hostmask mode : String) (key param : Option String),
    st.wsOpen = false →
    IrcClient.send st raw = [] ∧
    IrcClient.join st channel key = (st, []) ∧
    IrcClient.part st channel = (st, []) ∧
    IrcClient.kick st channel nick2 reason = (st, []) ∧
    IrcClient.ban st channel nick2 = (st, []) ∧
    IrcClient.unban st channel hostmask = (st, []) ∧
    IrcClient.op st channel nick2 = (st, []) ∧
    IrcClient.deop st channel nick2 = (st, []) ∧
    IrcClient.voice st channel nick2 = (st, []) ∧
    IrcClient.devoice st channel nick2 = (st, []) ∧
    IrcClient.setMode st channel mode param = (st, []) ∧
    IrcClient.sendMessage st target text =
      (st, [Act.emit (Event.privmsg (some target) st.currentNick (some text)
        (some true))]) ∧
    IrcClient.changeNick st nick2 = ({ st with currentNick := nick2 }, []) := by
  intro st raw channel nick2 target text reason hostmask mode key param h
  have hs : ∀ r, IrcClient.send st r = [] := fun r => by simp [IrcClient.send, h]
  refine ⟨hs raw, ?_, ?_, ?_, ?_, ?_, ?_, ?_, ?_, ?_, ?_, ?_, ?_⟩
  · cases key with
    | none => simp [IrcClient.join, hs]
    | some k => by_cases hk : k = "" <;> simp [IrcClient.join, hk, hs]
  · simp [IrcClient.part, hs]
  · simp [IrcClient.kick, hs]
  · simp [IrcClient.ban, hs]
  · simp [IrcClient.unban, hs]
  · simp [IrcClient.op, hs]
  · simp [IrcClient.deop, hs]
  · simp [IrcClient.voice, hs]
  · simp [IrcClient.devoice, hs]
  · cases param with
    | none => simp [IrcClient.setMode, hs]
    | some p => by_cases hp2 : p = "" <;> simp [IrcClient.setMode, hp2, hs]
  · simp [IrcClient.sendMessage, hs]
  · simp [IrcClient.changeNick, hs]

/-- Witness for the amended C4 at a concrete disconnected session. -/
theorem C4_amended_no_writes_witness :
    IrcClient.send ⟨false, "Guest"⟩ "QUIT :bye" = [] ∧
    IrcClient.join ⟨false, "Guest"⟩ "#c" (some "k") = (⟨false, "Guest"⟩, []) ∧
    IrcClient.part ⟨false, "Guest"⟩ "#c" = (⟨false, "Guest"⟩, []) ∧
    IrcClient.kick ⟨false, "Guest"⟩ "#c" "Bob" "spam" = (⟨false, "Guest"⟩, []) ∧
    IrcClient.ban ⟨false, "Guest"⟩ "#c" "Bob" = (⟨false, "Guest"⟩, []) ∧
    IrcClient.unban ⟨false, "Guest"⟩ "#c" "Bob!*@*" = (⟨false, "Guest"⟩, []) ∧
    IrcClient.op ⟨false, "Guest"⟩ "#c" "Bob" = (⟨false, "Guest"⟩, []) ∧
    IrcClient.deop ⟨false, "Guest"⟩ "#c" "Bob" = (⟨false, "Guest"⟩, []) ∧
    IrcClient.voice ⟨false, "Guest"⟩ "#c" "Bob" = (⟨false, "Guest"⟩, []) ∧
    IrcClient.devoice ⟨false, "Guest"⟩ "#c" "Bob" = (⟨false, "Guest"⟩, []) ∧
    IrcClient.setMode ⟨false, "Guest"⟩ "#c" "+m" (some "x") = (⟨false, "Guest"⟩, []) ∧
    IrcClient.sendMessage ⟨false, "Guest"⟩ "#c" "hello" =
      (⟨false, "Guest"⟩, [Act.emit (Event.privmsg (some "#c") "Guest"
        (some "hello") (some true))]) ∧
    IrcClient.changeNick ⟨false, "Guest"⟩ "Bob" = (⟨false, "Bob"⟩, []) :=
  C4_amended_no_writes ⟨false, "Guest"⟩ "QUIT :bye" "#c" "Bob" "#c" "hello"
    "spam" "Bob!*@*" "+m" (some "k") (some "x") rfl

/-- C7 (counterexample): with a target containing a space delimiter,
`sendMessage` serializes a line that `parse` does not decode back to the
builder's parameter list: target `"a b"` with trailing text
`"hello world"` decodes to three parameters instead of two. -/
theorem C7_counterexample :
    writesOf (IrcClient.sendMessage ⟨true, "me"⟩ "a b" "hello world").2 =
      ["PRIVMSG a b :hello world\r\n"] ∧
    (IrcParser.parse "PRIVMSG a b :hello world").params =
      ["a", "b", "hello world"] ∧
    ["a", "b", "hello world"] ≠ ["a b", "hello world"] := by
  decide

/-- C7 (amended): for any parameter list whose final element is a multi-word
trailing string and whose non-final elements contain no space delimiter and
do not begin with the trailing marker, `sendMessage` and `kick` serialize
lines that `parse` decodes back to an equal command and parameter list. -/
theorem C7_amended_roundtrip : ∀ (nick target text channel kicked reason : String),
    ' ' ∉ target.data → target.data.head? ≠ some ':' → ' ' ∈ text.data →
    ' ' ∉ channel.data → channel.data.head? ≠ some ':' →
    ' ' ∉ kicked.data → kicked.data.head? ≠ some ':' → ' ' ∈ reason.data →
    (writesOf (IrcClient.sendMessage ⟨true, nick⟩ target text).2 =
        [("PRIVMSG " ++ target ++ " :" ++ text) ++ "\r\n"] ∧
      IrcParser.parse ("PRIVMSG " ++ target ++ " :" ++ text) =
        ⟨"", "PRIVMSG", [target, text]⟩) ∧
    (writesOf (IrcClient.kick ⟨true, nick⟩ channel kicked reason).2 =
        [("KICK " ++ channel ++ " " ++ kicked ++ " :" ++ reason) ++ "\r\n"] ∧
      IrcParser.parse ("KICK " ++ channel ++ " " ++ kicked ++ " :" ++ reason) =
        ⟨"", "KICK", [channel, kicked, reason]⟩) := by
  intro nick target text channel kicked reason ht hth _ hc hch hk hkh _
  refine ⟨⟨?_, ?_⟩, ⟨?_, ?_⟩⟩
  · simp [IrcClient.sendMessage, IrcClient.send, writesOf]
  · have hdata : ("PRIVMSG " ++ target ++ " :" ++ text).data =
        "PRIVMSG".data ++ ' ' :: (target.data ++ ' ' :: ':' :: text.data) := by
      simp only [data_append]
      simp
    simp only [IrcParser.parse]
    rw [hdata, parseL_after_cmd _ _ (by decide) (by decide),
      paramsAux_true_tok target.data (':' :: text.data) ht hth, paramsAux_trailing]
    simp [asString_data]
    decide
  · simp [IrcClient.kick, IrcClient.send, writesOf]
  · have hdata : ("KICK " ++ channel ++ " " ++ kicked ++ " :" ++ reason).data =
        "KICK".data ++ ' ' ::
          (channel.data ++ ' ' :: (kicked.data ++ ' ' :: ':' :: reason.data)) := by
      simp only [data_append]
      simp
    simp only [IrcParser.parse]
    rw [hdata, parseL_after_cmd _ _ (by decide) (by decide),
      paramsAux_true_tok channel.data _ hc hch,
      paramsAux_true_tok kicked.data (':' :: reason.data) hk hkh, paramsAux_trailing]
    simp [asString_data]
    decide

/-- Witness for the amended C7 at concrete inputs with multi-word trailing
parameters. -/
theorem C7_amended_roundtrip_witness :
    (writesOf (IrcClient.sendMessage ⟨true, "me"⟩ "#chan" "hello world").2 =
        [("PRIVMSG " ++ "#chan" ++ " :" ++ "hello world") ++ "\r\n"] ∧
      IrcParser.parse ("PRIVMSG " ++ "#chan" ++ " :" ++ "hello world") =
        ⟨"", "PRIVMSG", ["#chan", "hello world"]⟩) ∧
    (writesOf (IrcClient.kick ⟨true, "me"⟩ "#room" "Bob" "be nice").2 =
        [("KICK " ++ "#room" ++ " " ++ "Bob" ++ " :" ++ "be nice") ++ "\r\n"] ∧
      IrcParser.parse ("KICK " ++ "#room" ++ " " ++ "Bob" ++ " :" ++ "be nice") =
        ⟨"", "KICK", ["#room", "Bob", "be nice"]⟩) :=
  C7_amended_roundtrip "me" "#chan" "hello world" "#room" "Bob" "be nice"
    (by decide) (by decide) (by decide) (by decide) (by decide) (by decide)
    (by decide) (by decide)

/-- C8: for every input string the rendered markup equals the rendering of
its tag/character item stream, and that stream is a well-formed balanced tag
stream (every Bold/Italic/Underline code toggles its tag, Reset closes every
open tag, and open tags are force-closed at end of input in the order bold,
italic, underline — per the definitions of `renderAux` and `renderToks`);
concretely `"\x02bold\x02 plain"` renders to `"<b>bold</b> plain"` and the
unterminated `"\x02bold"` renders to `"<b>bold</b>"`. -/
theorem C8_markup_balanced :
    (∀ s : String,
      IrcParser.parseContentToHtml s = toksStr (renderToks false false false s.data) ∧
      checkToks false false false (renderToks false false false s.data) = true) ∧
    IrcParser.parseContentToHtml "\x02bold\x02 plain" = "<b>bold</b> plain" ∧
    IrcParser.parseContentToHtml "\x02bold" = "<b>bold</b>" :=
  ⟨fun s => ⟨renderAux_eq_toksStr s.data false false false,
    checkToks_renderToks s.data false false false⟩, by decide, by decide⟩

/-- C9: runs of consecutive space delimiters in the positional-parameter
region are preserved as empty-string parameter tokens, not coalesced: any
token list (empty tokens included) joined by single delimiters parses back
to exactly that token list; concretely `parse "CMD a  b"` yields parameters
`["a", "", "b"]`. -/
theorem C9_empty_tokens :
    (∀ (toks : List (List Char)) (t : List Char),
      (∀ x ∈ toks, ' ' ∉ x ∧ x.head? ≠ some ':') →
      ' ' ∉ t → t.head? ≠ some ':' → t ≠ [] →
      paramsAux [] true (sepSp (toks ++ [t])) = toks ++ [t]) ∧
    IrcParser.parse "CMD a  b" = ⟨"", "CMD", ["a", "", "b"]⟩ :=
  ⟨fun toks t h ht hth htne => paramsAux_sepSp_toks toks t h ht hth htne, by decide⟩

/-- Witness for C9 at a token list containing an empty token (the run of two
consecutive delimiters between `a` and `b`). -/
theorem C9_empty_tokens_witness :
    paramsAux [] true (sepSp (["a".data, []] ++ ["b".data])) =
      ["a".data, []] ++ ["b".data] :=
  C9_empty_tokens.1 ["a".data, []] "b".data (by decide) (by decide) (by decide)
    (by decide)

/-- C10: a raw line beginning with the prefix marker `:` but containing no
space delimiter keeps its prefix: `parse` returns an empty origin, the
entire line upper-cased (leading `:` included) as command, and no
parameters. -/
theorem C10_colon_no_space : ∀ s : String, s.data.head? = some ':' →
    ' ' ∉ s.data →
    IrcParser.parse s = ⟨"", (s.data.map jsUpper).asString, []⟩ := by
  intro s hh hs
  simp only [IrcParser.parse]
  rw [parseL_colon_no_space s.data hh hs]
  rfl

/-- Witness for C10 at the concrete line `":abc"`. -/
theorem C10_colon_no_space_witness :
    IrcParser.parse ":abc" = ⟨"", (":abc".data.map jsUpper).asString, []⟩ :=
  C10_colon_no_space ":abc" (by decide) (by decide)
